import Mathlib

/-!
Verification of the Minecraft Bedrock realm proxy (bridge + tools/proxy).

The Go sources are shallowly embedded:
* float32 values are only copied and compared by the embedded code, never
  computed with, so they are modelled as opaque integer scalars (`F32`);
* Go maps are modelled as association lists with unique keys, with lookup,
  insert-or-replace and delete operations matching Go map semantics;
* the proxy listener loop and session engine are modelled as a small-step
  state machine over program points, driven by environment events;
* fallible operations return `Except`/`Option`.
-/

namespace MinecraftProxy

/-- Opaque model of Go float32 scalars: the embedded code only stores and
compares them, so an integer carrier is faithful. -/
abbrev F32 := Int

/-- Model of mgl32.Vec3. -/
structure Vec3 where
  x : F32
  y : F32
  z : F32
deriving DecidableEq, Repr

/-- Model of protocol.BlockPos (three int32 coordinates). -/
structure BlockPos where
  x : Int
  y : Int
  z : Int
deriving DecidableEq, Repr

/-- ChatMessage from state.go: time, source, message and direction tag. -/
structure ChatMessage where
  time : Nat
  source : String
  message : String
  type : String
deriving DecidableEq, Repr

/-- PlayerInfo from state.go. -/
structure PlayerInfo where
  username : String
  xuid : String
deriving DecidableEq, Repr

/-- EntityInfo from state.go. -/
structure EntityInfo where
  runtimeID : Nat
  type : String
  position : Vec3
deriving DecidableEq, Repr

/-- InventorySlot from state.go: the flattened query result entry.  Its only
fields are slot index, resolved item name and count. -/
structure InventorySlot where
  slot : Nat
  item : String
  count : Nat
deriving DecidableEq, Repr

/-- Model of protocol.ItemInstance: the fields read by the code are
Stack.NetworkID and Stack.Count. -/
structure ItemInstance where
  networkID : Int
  count : Nat
deriving DecidableEq, Repr

/-- The zero value protocol.ItemInstance\x7b\x7d used to grow inventory windows. -/
def emptyItemInstance : ItemInstance := ⟨0, 0⟩

/-! Association-list model of Go maps.  Keys are unique; `mapFind?` is map
indexing, `mapInsert` is `m[k] = v`, `mapErase` is `delete(m, k)`. -/

/-- Go map read `m[k]`. -/
def mapFind? {κ ν : Type} [DecidableEq κ] : List (κ × ν) → κ → Option ν
  | [], _ => none
  | (k', v) :: rest, k => if k = k' then some v else mapFind? rest k

/-- Go map write `m[k] = v`: replace in place, or add a new binding. -/
def mapInsert {κ ν : Type} [DecidableEq κ] : List (κ × ν) → κ → ν → List (κ × ν)
  | [], k, v => [(k, v)]
  | (k', v') :: rest, k, v =>
      if k = k' then (k, v) :: rest else (k', v') :: mapInsert rest k v

/-- Go map delete `delete(m, k)`. -/
def mapErase {κ ν : Type} [DecidableEq κ] : List (κ × ν) → κ → List (κ × ν)
  | [], _ => []
  | (k', v') :: rest, k =>
      if k = k' then rest else (k', v') :: mapErase rest k

/-! Status constants from state.go. -/

def StatusStarting : String := "starting"
def StatusWaitingForClient : String := "waiting_for_client"
def StatusConnectingToRealm : String := "connecting_to_realm"
def StatusConnected : String := "connected"
def StatusDisconnected : String := "disconnected"

/-- maxChatHistory from state.go. -/
def maxChatHistory : Nat := 100

/-- GameData from minecraft.GameData: the fields the proxy reads. -/
structure GameData where
  worldName : String
  playerGameMode : Int
  time : Int
  dimension : Int
  worldSpawn : BlockPos
  playerPosition : Vec3
  pitch : F32
  yaw : F32
  entityRuntimeID : Nat
  items : List (Int × String)
deriving DecidableEq, Repr

/-- GameState from state.go.  Connection pointers are modelled by presence
booleans; all other fields mirror the Go struct. -/
structure GameState where
  status : String
  serverConn : Bool
  clientConn : Bool
  displayName : String
  xuid : String
  entityID : Nat
  posX : F32
  posY : F32
  posZ : F32
  pitch : F32
  yaw : F32
  dimension : Int
  inventory : List (Nat × List ItemInstance)
  chatHistory : List ChatMessage
  players : List (String × PlayerInfo)
  worldName : String
  worldTime : Int
  gameMode : Int
  spawnPos : BlockPos
  health : F32
  attributes : List (String × F32)
  entities : List (Nat × EntityInfo)
  itemRegistry : List (Int × String)
deriving DecidableEq, Repr

/-- NewGameState from state.go: initial status `starting`, empty maps. -/
def NewGameState : GameState :=
  { status := StatusStarting
    serverConn := false
    clientConn := false
    displayName := ""
    xuid := ""
    entityID := 0
    posX := 0, posY := 0, posZ := 0, pitch := 0, yaw := 0
    dimension := 0
    inventory := []
    chatHistory := []
    players := []
    worldName := ""
    worldTime := 0
    gameMode := 0
    spawnPos := ⟨0, 0, 0⟩
    health := 0
    attributes := []
    entities := []
    itemRegistry := [] }

namespace GameState

/-- SetStatus from state.go. -/
def SetStatus (gs : GameState) (status : String) : GameState :=
  { gs with status := status }

/-- SetConnections from state.go (handles modelled as presence booleans). -/
def SetConnections (gs : GameState) (server client : Bool) : GameState :=
  { gs with serverConn := server, clientConn := client }

/-- ClearConnections from state.go: only the two connection handles are
reset; no other field is touched. -/
def ClearConnections (gs : GameState) : GameState :=
  { gs with serverConn := false, clientConn := false }

/-- SetIdentity from state.go. -/
def SetIdentity (gs : GameState) (displayName xuid : String) (entityID : Nat) : GameState :=
  { gs with displayName := displayName, xuid := xuid, entityID := entityID }

/-- UpdatePosition from state.go. -/
def UpdatePosition (gs : GameState) (x y z pitch yaw : F32) : GameState :=
  { gs with posX := x, posY := y, posZ := z, pitch := pitch, yaw := yaw }

/-- SetDimension from state.go. -/
def SetDimension (gs : GameState) (dim : Int) : GameState :=
  { gs with dimension := dim }

/-- SetInventory from state.go: whole-window replacement. -/
def SetInventory (gs : GameState) (windowID : Nat) (items : List ItemInstance) : GameState :=
  { gs with inventory := mapInsert gs.inventory windowID items }

/-- UpdateInventorySlot from state.go: a missing window is created with
length slot+1; an existing window is grown by appending zero items while its
length is at most slot; then index slot is assigned. -/
def UpdateInventorySlot (gs : GameState) (windowID slot : Nat) (item : ItemInstance) :
    GameState :=
  let cur := match mapFind? gs.inventory windowID with
    | none => List.replicate (slot + 1) emptyItemInstance
    | some l => l
  let grown := cur ++ List.replicate (slot + 1 - cur.length) emptyItemInstance
  { gs with inventory := mapInsert gs.inventory windowID (grown.set slot item) }

end GameState

/-- resolveItemName from state.go, on the item registry. -/
def resolveItemName (reg : List (Int × String)) (networkID : Int) : String :=
  match mapFind? reg networkID with
  | some name => name
  | none => s!"unknown:{networkID}"

/-- One window of the Inventory query: the body of the inner
`for i, item := range items` loop, skipping count-zero slots.  The first
argument is the running slot index. -/
def flattenWindow (reg : List (Int × String)) : Nat → List ItemInstance → List InventorySlot
  | _, [] => []
  | i, item :: rest =>
      if item.count = 0 then flattenWindow reg (i + 1) rest
      else ⟨i, resolveItemName reg item.networkID, item.count⟩ :: flattenWindow reg (i + 1) rest

namespace GameState

/-- Inventory from state.go: flattens every window into one list of
InventorySlot entries; the window id is not recorded in the result. -/
def Inventory (gs : GameState) : List InventorySlot :=
  (gs.inventory.map (fun w => flattenWindow gs.itemRegistry 0 w.2)).flatten

/-- AppendChat from state.go: append, then trim to the last maxChatHistory
entries when over capacity. -/
def AppendChat (gs : GameState) (msg : ChatMessage) : GameState :=
  let h := gs.chatHistory ++ [msg]
  { gs with chatHistory :=
      if h.length > maxChatHistory then h.drop (h.length - maxChatHistory) else h }

/-- AddPlayer from state.go. -/
def AddPlayer (gs : GameState) (xuid username : String) : GameState :=
  { gs with players := mapInsert gs.players xuid ⟨username, xuid⟩ }

/-- RemovePlayer from state.go. -/
def RemovePlayer (gs : GameState) (xuid : String) : GameState :=
  { gs with players := mapErase gs.players xuid }

/-- Players from state.go: snapshot of the map values. -/
def Players (gs : GameState) : List PlayerInfo :=
  gs.players.map (fun p => p.2)

/-- SetWorldTime from state.go. -/
def SetWorldTime (gs : GameState) (t : Int) : GameState :=
  { gs with worldTime := t }

/-- SetHealth from state.go: sets the health field and writes the attribute
under the key "health". -/
def SetHealth (gs : GameState) (h : F32) : GameState :=
  { gs with health := h, attributes := mapInsert gs.attributes "health" h }

/-- SetAttribute from state.go: writes the named attribute and mirrors the
name "minecraft:health" into the health field. -/
def SetAttribute (gs : GameState) (name : String) (value : F32) : GameState :=
  let gs' := { gs with attributes := mapInsert gs.attributes name value }
  if name = "minecraft:health" then { gs' with health := value } else gs'

/-- InitFromGameData from state.go. -/
def InitFromGameData (gs : GameState) (gd : GameData) : GameState :=
  { gs with
      worldName := gd.worldName
      gameMode := gd.playerGameMode
      worldTime := gd.time
      dimension := gd.dimension
      spawnPos := gd.worldSpawn
      posX := gd.playerPosition.x
      posY := gd.playerPosition.y
      posZ := gd.playerPosition.z
      pitch := gd.pitch
      yaw := gd.yaw
      health := 20
      itemRegistry := gd.items.foldl (fun reg it => mapInsert reg it.1 it.2) gs.itemRegistry }

/-- AddEntity from state.go. -/
def AddEntity (gs : GameState) (runtimeID : Nat) (entityType : String) (pos : Vec3) :
    GameState :=
  { gs with entities := mapInsert gs.entities runtimeID ⟨runtimeID, entityType, pos⟩ }

/-- RemoveEntity from state.go. -/
def RemoveEntity (gs : GameState) (runtimeID : Nat) : GameState :=
  { gs with entities := mapErase gs.entities runtimeID }

/-- UpdateEntityPosition from state.go: updates only an existing entry. -/
def UpdateEntityPosition (gs : GameState) (runtimeID : Nat) (pos : Vec3) : GameState :=
  match mapFind? gs.entities runtimeID with
  | none => gs
  | some e => { gs with entities := mapInsert gs.entities runtimeID { e with position := pos } }

end GameState

/-! Map lemmas shared by several claims. -/

theorem mapFind?_mapInsert_self {κ ν : Type} [DecidableEq κ]
    (m : List (κ × ν)) (k : κ) (v : ν) :
    mapFind? (mapInsert m k v) k = some v := by
  induction m with
  | nil => simp [mapInsert, mapFind?]
  | cons hd tl ih =>
      by_cases h : k = hd.1
      · simp [mapInsert, mapFind?, h]
      · simp [mapInsert, mapFind?, h, ih]

theorem mapFind?_mapInsert_ne {κ ν : Type} [DecidableEq κ]
    (m : List (κ × ν)) (k k' : κ) (v : ν) (hne : k ≠ k') :
    mapFind? (mapInsert m k' v) k = mapFind? m k := by
  induction m with
  | nil => simp [mapInsert, mapFind?, hne]
  | cons hd tl ih =>
      by_cases h : k' = hd.1
      · subst h
        simp [mapInsert, mapFind?, hne]
      · by_cases h2 : k = hd.1
        · simp [mapInsert, mapFind?, h, h2]
        · simp [mapInsert, mapFind?, h, h2, ih]

theorem mapErase_mapInsert_of_not_mem {κ ν : Type} [DecidableEq κ]
    (m : List (κ × ν)) (k : κ) (v : ν) (h : mapFind? m k = none) :
    mapErase (mapInsert m k v) k = m := by
  induction m with
  | nil => simp [mapInsert, mapErase]
  | cons hd tl ih =>
      by_cases hk : k = hd.1
      · simp [mapFind?, hk] at h
      · simp [mapFind?, hk] at h
        simp [mapInsert, mapErase, hk, ih h]

theorem mapFind?_mem {κ ν : Type} [DecidableEq κ]
    (m : List (κ × ν)) (k : κ) (v : ν) (h : mapFind? m k = some v) :
    (k, v) ∈ m := by
  induction m with
  | nil => simp [mapFind?] at h
  | cons hd tl ih =>
      by_cases hk : k = hd.1
      · simp [mapFind?, hk] at h
        subst hk
        cases hd with
        | mk k2 v2 =>
            simp only at h
            subst h
            exact List.mem_cons_self _ _
      · simp [mapFind?, hk] at h
        exact List.mem_cons_of_mem _ (ih h)

/-! Chat ring lemmas. -/

/-- The suffix of the last `n` entries of a list. -/
def lastN {α : Type} (n : Nat) (l : List α) : List α := l.drop (l.length - n)

theorem lastN_length_le {α : Type} (n : Nat) (l : List α) : (lastN n l).length ≤ n := by
  unfold lastN
  rw [List.length_drop]
  omega

theorem appendChat_chatHistory (gs : GameState) (msg : ChatMessage) :
    (gs.AppendChat msg).chatHistory = lastN maxChatHistory (gs.chatHistory ++ [msg]) := by
  unfold GameState.AppendChat lastN
  dsimp only
  split
  · rfl
  · rename_i h1
    have h0 : (gs.chatHistory ++ [msg]).length - maxChatHistory = 0 := by omega
    rw [h0, List.drop_zero]

theorem lastN_append_lastN {α : Type} (n : Nat) (xs ys : List α) :
    lastN n (lastN n xs ++ ys) = lastN n (xs ++ ys) := by
  unfold lastN
  rcases le_or_lt xs.length n with hle | hlt
  · have h0 : xs.length - n = 0 := Nat.sub_eq_zero_of_le hle
    rw [h0, List.drop_zero]
  · have h1 : (xs.drop (xs.length - n)).length = n := by
      rw [List.length_drop]
      omega
    rw [List.length_append, List.length_append, h1]
    rw [List.drop_append_eq_append_drop, List.drop_append_eq_append_drop, List.drop_drop, h1]
    congr 1
    · congr 1
      omega
    · congr 1
      omega

theorem foldl_appendChat (msgs : List ChatMessage) :
    ∀ gs : GameState, gs.chatHistory.length ≤ maxChatHistory →
      (msgs.foldl GameState.AppendChat gs).chatHistory =
        lastN maxChatHistory (gs.chatHistory ++ msgs) := by
  induction msgs with
  | nil =>
      intro gs h
      simp only [List.foldl_nil, List.append_nil]
      unfold lastN
      have h0 : gs.chatHistory.length - maxChatHistory = 0 := by omega
      rw [h0, List.drop_zero]
  | cons m ms ih =>
      intro gs h
      have hb : (gs.AppendChat m).chatHistory.length ≤ maxChatHistory := by
        rw [appendChat_chatHistory]
        exact lastN_length_le _ _
      rw [List.foldl_cons, ih _ hb, appendChat_chatHistory, lastN_append_lastN]
      congr 1
      simp [List.append_assoc]

/-- C6: for every sequence of AppendChat calls starting from the fresh state,
the chat history has length at most 100 and holds exactly the most recent
messages in insertion order.  Quantifying over all message sequences covers
every intermediate point of every longer sequence. -/
theorem chat_history_bounded_most_recent (msgs : List ChatMessage) :
    (msgs.foldl GameState.AppendChat NewGameState).chatHistory = lastN maxChatHistory msgs ∧
    (msgs.foldl GameState.AppendChat NewGameState).chatHistory.length ≤ maxChatHistory := by
  have h := foldl_appendChat msgs NewGameState (by simp [NewGameState])
  rw [show NewGameState.chatHistory = [] from rfl, List.nil_append] at h
  exact ⟨h, by rw [h]; exact lastN_length_le _ _⟩

/-- C8: after UpdateInventorySlot(w, s, item) the stored sequence for window
w has length at least s+1 and holds the item at index s, whether or not the
window existed before. -/
theorem updateInventorySlot_grows (gs : GameState) (w s : Nat) (item : ItemInstance) :
    ∃ l, mapFind? (gs.UpdateInventorySlot w s item).inventory w = some l ∧
      s + 1 ≤ l.length ∧ l.get? s = some item := by
  have key : ∀ cur : List ItemInstance,
      s + 1 ≤ ((cur ++ List.replicate (s + 1 - cur.length) emptyItemInstance).set s item).length ∧
      ((cur ++ List.replicate (s + 1 - cur.length) emptyItemInstance).set s item).get? s
        = some item := by
    intro cur
    have hlen : (cur ++ List.replicate (s + 1 - cur.length) emptyItemInstance).length
        = cur.length + (s + 1 - cur.length) := by simp
    have hs : s < (cur ++ List.replicate (s + 1 - cur.length) emptyItemInstance).length := by
      rw [hlen]; omega
    constructor
    · rw [List.length_set, hlen]; omega
    · rw [List.get?_eq_getElem?]
      exact List.getElem?_set_eq_of_lt item hs
  unfold GameState.UpdateInventorySlot
  rcases hfind : mapFind? gs.inventory w with _ | l
  · simp only [hfind]
    exact ⟨_, mapFind?_mapInsert_self _ _ _,
      (key (List.replicate (s + 1) emptyItemInstance)).1,
      (key (List.replicate (s + 1) emptyItemInstance)).2⟩
  · simp only [hfind]
    exact ⟨_, mapFind?_mapInsert_self _ _ _, (key l).1, (key l).2⟩

/-- C9 (amended): AddPlayer(x, u) followed by RemovePlayer(x) restores the
roster, provided x was not already an online player; if x was present its
previous entry is lost (see the counterexample). -/
theorem addPlayer_removePlayer_fresh (gs : GameState) (x u : String)
    (h : mapFind? gs.players x = none) :
    ((gs.AddPlayer x u).RemovePlayer x).Players = gs.Players := by
  unfold GameState.AddPlayer GameState.RemovePlayer GameState.Players
  simp only
  rw [mapErase_mapInsert_of_not_mem gs.players x _ h]

/-- Witness for the amended C9 theorem at a concrete fresh roster. -/
theorem addPlayer_removePlayer_fresh_witness :
    mapFind? NewGameState.players "x1" = none ∧
    ((NewGameState.AddPlayer "x1" "Alice").RemovePlayer "x1").Players = NewGameState.Players :=
  ⟨rfl, addPlayer_removePlayer_fresh NewGameState "x1" "Alice" rfl⟩

/-- A state in which user id x1 is already online as Alice. -/
def rosterCexState : GameState :=
  { NewGameState with players := [("x1", ⟨"Alice", "x1"⟩)] }

/-- C9 counterexample: when the user id is already present, add-then-remove
does not restore Players() even up to ordering — the previous entry is
deleted. -/
theorem addPlayer_removePlayer_cex :
    ((rosterCexState.AddPlayer "x1" "Bob").RemovePlayer "x1").Players = [] ∧
    rosterCexState.Players = [⟨"Alice", "x1"⟩] ∧
    ¬ (([] : List PlayerInfo).Perm [⟨"Alice", "x1"⟩]) := by
  refine ⟨rfl, rfl, ?_⟩
  intro hperm
  exact absurd hperm.length_eq (by simp)

/-- C3 (amended): the aliasing between the health field and the attribute
map is one-directional.  SetAttribute("minecraft:health", v) sets the health
field; SetHealth(h) sets the health field and records the attribute under
the key "health", leaving the attribute "minecraft:health" unchanged. -/
theorem health_attribute_alias (gs : GameState) (v h : F32) :
    (gs.SetAttribute "minecraft:health" v).health = v ∧
    mapFind? (gs.SetAttribute "minecraft:health" v).attributes "minecraft:health" = some v ∧
    (gs.SetHealth h).health = h ∧
    mapFind? (gs.SetHealth h).attributes "health" = some h ∧
    mapFind? (gs.SetHealth h).attributes "minecraft:health"
      = mapFind? gs.attributes "minecraft:health" := by
  refine ⟨?_, ?_, rfl, ?_, ?_⟩
  · simp [GameState.SetAttribute]
  · simp [GameState.SetAttribute, mapFind?_mapInsert_self]
  · simp [GameState.SetHealth, mapFind?_mapInsert_self]
  · exact mapFind?_mapInsert_ne _ _ _ _ (by decide)

/-- A state whose attribute "minecraft:health" is 5. -/
def healthCexState : GameState :=
  { NewGameState with attributes := [("minecraft:health", 5)] }

/-- C3 counterexample: SetHealth(7) does not make the attribute
"minecraft:health" equal 7 — it stays at its old value 5, because SetHealth
writes the attribute key "health" instead. -/
theorem setHealth_alias_cex :
    mapFind? ((healthCexState.SetHealth 7).attributes) "minecraft:health" = some 5 ∧
    (5 : F32) ≠ 7 := by
  constructor
  · decide
  · decide

/-! Packet interception (intercept.go). -/

/-- TextTypeChat from the protocol library. -/
def textTypeChat : Nat := 1

/-- PlayerListActionAdd from the protocol library. -/
def playerListActionAdd : Nat := 0

/-- PlayerListActionRemove from the protocol library. -/
def playerListActionRemove : Nat := 1

/-- Cast of a Go int64 to uint64, as in uint64(p.EntityUniqueID). -/
def u64cast (i : Int) : Nat := (i % (2 ^ 64 : Nat)).toNat

/-- Client-origin packets inspected by interceptClientPacket; every other
packet kind is the no-op constructor. -/
inductive ClientPacket where
  | playerAuthInput (position : Vec3) (pitch yaw : F32)
  | text (textType : Nat) (sourceName message : String)
  | other
deriving DecidableEq, Repr

/-- Server-origin packets inspected by interceptServerPacket; every other
packet kind is the no-op constructor. -/
inductive ServerPacket where
  | movePlayer (entityRuntimeID : Nat) (position : Vec3) (pitch yaw : F32)
  | changeDimension (dimension : Int)
  | inventoryContent (windowID : Nat) (content : List ItemInstance)
  | inventorySlot (windowID slot : Nat) (newItem : ItemInstance)
  | text (textType : Nat) (sourceName message : String)
  | playerList (actionType : Nat) (entries : List (String × String))
  | setTime (time : Int)
  | updateAttributes (entityRuntimeID : Nat) (attributes : List (String × F32))
  | setHealth (health : Int)
  | addActor (entityRuntimeID : Nat) (entityType : String) (position : Vec3)
  | addPlayer (entityRuntimeID : Nat) (username : String) (position : Vec3)
  | removeActor (entityUniqueID : Int)
  | moveActorDelta (entityRuntimeID : Nat) (position : Vec3)
  | other
deriving DecidableEq, Repr

/-- interceptClientPacket from intercept.go.  The wall-clock instant used for
chat timestamps is passed in explicitly. -/
def interceptClientPacket (now : Nat) (pk : ClientPacket) (state : GameState) : GameState :=
  match pk with
  | .playerAuthInput pos pitch yaw =>
      state.UpdatePosition pos.x pos.y pos.z pitch yaw
  | .text textType sourceName message =>
      if textType = textTypeChat then
        state.AppendChat ⟨now, sourceName, message, "outgoing"⟩
      else state
  | .other => state

/-- interceptServerPacket from intercept.go. -/
def interceptServerPacket (now : Nat) (pk : ServerPacket) (state : GameState) : GameState :=
  match pk with
  | .movePlayer entityRuntimeID pos pitch yaw =>
      if entityRuntimeID = state.entityID then
        state.UpdatePosition pos.x pos.y pos.z pitch yaw
      else state
  | .changeDimension dim => state.SetDimension dim
  | .inventoryContent windowID content => state.SetInventory (windowID % 256) content
  | .inventorySlot windowID slot newItem =>
      state.UpdateInventorySlot (windowID % 256) slot newItem
  | .text _ sourceName message =>
      state.AppendChat ⟨now, sourceName, message, "incoming"⟩
  | .playerList actionType entries =>
      if actionType = playerListActionAdd then
        entries.foldl (fun st e => st.AddPlayer e.1 e.2) state
      else if actionType = playerListActionRemove then
        entries.foldl (fun st e => st.RemovePlayer e.1) state
      else state
  | .setTime t => state.SetWorldTime t
  | .updateAttributes entityRuntimeID attrs =>
      if entityRuntimeID = state.entityID then
        attrs.foldl (fun st a => st.SetAttribute a.1 a.2) state
      else state
  | .setHealth h => state.SetHealth h
  | .addActor entityRuntimeID entityType pos => state.AddEntity entityRuntimeID entityType pos
  | .addPlayer entityRuntimeID username pos => state.AddEntity entityRuntimeID username pos
  | .removeActor entityUniqueID => state.RemoveEntity (u64cast entityUniqueID)
  | .moveActorDelta entityRuntimeID pos => state.UpdateEntityPosition entityRuntimeID pos
  | .other => state

/-- C2: a server-to-client move-player packet updates the player position
exactly when its entity runtime id equals our own entity runtime id; with
any other runtime id the position fields are left unchanged. -/
theorem movePlayer_updates_position_iff (now : Nat) (gs : GameState) (r : Nat)
    (pos : Vec3) (pitch yaw : F32) :
    (interceptServerPacket now (.movePlayer r pos pitch yaw) gs).posX
        = (if r = gs.entityID then pos.x else gs.posX) ∧
    (interceptServerPacket now (.movePlayer r pos pitch yaw) gs).posY
        = (if r = gs.entityID then pos.y else gs.posY) ∧
    (interceptServerPacket now (.movePlayer r pos pitch yaw) gs).posZ
        = (if r = gs.entityID then pos.z else gs.posZ) ∧
    (interceptServerPacket now (.movePlayer r pos pitch yaw) gs).pitch
        = (if r = gs.entityID then pitch else gs.pitch) ∧
    (interceptServerPacket now (.movePlayer r pos pitch yaw) gs).yaw
        = (if r = gs.entityID then yaw else gs.yaw) := by
  unfold interceptServerPacket GameState.UpdatePosition
  by_cases h : r = gs.entityID <;> simp [h]

/-! Counting lemmas for the Inventory query. -/

theorem flattenWindow_countP_pos (reg : List (Int × String)) (p : InventorySlot → Bool) :
    ∀ (l : List ItemInstance) (start j : Nat) (hj : j < l.length),
      (l.get ⟨j, hj⟩).count ≠ 0 →
      p ⟨start + j, resolveItemName reg (l.get ⟨j, hj⟩).networkID,
          (l.get ⟨j, hj⟩).count⟩ = true →
      1 ≤ (flattenWindow reg start l).countP p := by
  intro l
  induction l with
  | nil =>
      intro start j hj
      simp at hj
  | cons it rest ih =>
      intro start j hj hcount hp
      cases j with
      | zero =>
          simp only [List.get] at hcount hp
          unfold flattenWindow
          rw [if_neg hcount, List.countP_cons]
          simp only [Nat.add_zero] at hp
          simp [hp]
      | succ j' =>
          have hj' : j' < rest.length := by simpa using hj
          simp only [List.get] at hcount hp
          rw [show start + (j' + 1) = (start + 1) + j' from by omega] at hp
          have htail : 1 ≤ (flattenWindow reg (start + 1) rest).countP p :=
            ih (start + 1) j' hj' hcount hp
          unfold flattenWindow
          by_cases h0 : it.count = 0
          · rw [if_pos h0]
            exact htail
          · rw [if_neg h0, List.countP_cons]
            omega

theorem single_le_sum_map {α : Type} (f : α → Nat) (l : List α) (a : α) (ha : a ∈ l) :
    f a ≤ (l.map f).sum :=
  List.single_le_sum (fun x _ => Nat.zero_le x) _ (List.mem_map_of_mem f ha)

theorem two_mem_le_sum_map {α : Type} (f : α → Nat) (l : List α) (a b : α)
    (ha : a ∈ l) (hb : b ∈ l) (hne : a ≠ b) :
    f a + f b ≤ (l.map f).sum := by
  induction l with
  | nil => simp at ha
  | cons hd tl ih =>
      rcases List.mem_cons.mp ha with rfl | ha'
      · have hb' : b ∈ tl := by
          rcases List.mem_cons.mp hb with rfl | h
          · exact absurd rfl hne
          · exact h
        have := single_le_sum_map f tl b hb'
        simp only [List.map_cons, List.sum_cons]
        omega
      · rcases List.mem_cons.mp hb with rfl | hb'
        · have := single_le_sum_map f tl a ha'
          simp only [List.map_cons, List.sum_cons]
          omega
        · have := ih ha' hb'
          simp only [List.map_cons, List.sum_cons]
          omega

theorem inventory_countP_ge_two (gs : GameState) (p : InventorySlot → Bool)
    (w1 w2 : Nat) (l1 l2 : List ItemInstance) (hne : w1 ≠ w2)
    (h1 : mapFind? gs.inventory w1 = some l1)
    (h2 : mapFind? gs.inventory w2 = some l2)
    (hp1 : 1 ≤ (flattenWindow gs.itemRegistry 0 l1).countP p)
    (hp2 : 1 ≤ (flattenWindow gs.itemRegistry 0 l2).countP p) :
    2 ≤ gs.Inventory.countP p := by
  unfold GameState.Inventory
  rw [List.countP_flatten, List.map_map]
  have hmem1 : (w1, l1) ∈ gs.inventory := mapFind?_mem _ _ _ h1
  have hmem2 : (w2, l2) ∈ gs.inventory := mapFind?_mem _ _ _ h2
  have hab : (w1, l1) ≠ (w2, l2) := fun hab => hne (congrArg Prod.fst hab)
  have hsum := two_mem_le_sum_map
    (fun wp => (flattenWindow gs.itemRegistry 0 wp.2).countP p)
    gs.inventory (w1, l1) (w2, l2) hmem1 hmem2 hab
  have hfun : (List.countP p ∘ fun w : Nat × List ItemInstance =>
        flattenWindow gs.itemRegistry 0 w.2)
      = (fun wp : Nat × List ItemInstance =>
        (flattenWindow gs.itemRegistry 0 wp.2).countP p) := rfl
  rw [hfun]
  simp only at hsum
  omega

/-- C10: when two distinct windows each hold an item of non-zero count at
the same index i, the Inventory query returns two entries whose Slot field
both equal i; and if the stored items are equal the two entries coincide in
every field, since no field of the result records the window. -/
theorem inventory_flattens_windows (gs : GameState) (w1 w2 i : Nat)
    (l1 l2 : List ItemInstance) (hne : w1 ≠ w2)
    (h1 : mapFind? gs.inventory w1 = some l1)
    (h2 : mapFind? gs.inventory w2 = some l2)
    (hi1 : i < l1.length) (hi2 : i < l2.length)
    (hc1 : (l1.get ⟨i, hi1⟩).count ≠ 0) (hc2 : (l2.get ⟨i, hi2⟩).count ≠ 0) :
    2 ≤ gs.Inventory.countP (fun e => e.slot == i) ∧
    (l1.get ⟨i, hi1⟩ = l2.get ⟨i, hi2⟩ →
      2 ≤ gs.Inventory.countP (fun e =>
        e == ⟨i, resolveItemName gs.itemRegistry (l1.get ⟨i, hi1⟩).networkID,
          (l1.get ⟨i, hi1⟩).count⟩)) := by
  constructor
  · apply inventory_countP_ge_two gs _ w1 w2 l1 l2 hne h1 h2
    · apply flattenWindow_countP_pos gs.itemRegistry _ l1 0 i hi1 hc1
      simp
    · apply flattenWindow_countP_pos gs.itemRegistry _ l2 0 i hi2 hc2
      simp
  · intro heq
    apply inventory_countP_ge_two gs _ w1 w2 l1 l2 hne h1 h2
    · apply flattenWindow_countP_pos gs.itemRegistry _ l1 0 i hi1 hc1
      simp
    · apply flattenWindow_countP_pos gs.itemRegistry _ l2 0 i hi2 hc2
      rw [← heq]
      simp

/-- A state with the same item at index 0 of two distinct windows. -/
def inventoryCexState : GameState :=
  { NewGameState with inventory := [(0, [⟨7, 1⟩]), (1, [⟨7, 1⟩])] }

/-- Witness for the C10 theorem at a concrete two-window state. -/
theorem inventory_flattens_windows_witness :
    2 ≤ inventoryCexState.Inventory.countP (fun e => e.slot == 0) ∧
    (([(⟨7, 1⟩ : ItemInstance)].get ⟨0, by decide⟩ = [(⟨7, 1⟩ : ItemInstance)].get ⟨0, by decide⟩) →
      2 ≤ inventoryCexState.Inventory.countP (fun e =>
        e == ⟨0, resolveItemName inventoryCexState.itemRegistry
          ([(⟨7, 1⟩ : ItemInstance)].get ⟨0, by decide⟩).networkID,
          ([(⟨7, 1⟩ : ItemInstance)].get ⟨0, by decide⟩).count⟩)) :=
  inventory_flattens_windows inventoryCexState 0 1 0 [⟨7, 1⟩] [⟨7, 1⟩]
    (by decide) rfl rfl (by decide) (by decide) (by decide) (by decide)

/-! Keepalive worker (playerAuthInputLoop from tools/proxy/proxy.go). -/

/-- InputModeMouse from the protocol library. -/
def inputModeMouse : Nat := 1

/-- PlayModeNormal from the protocol library. -/
def playModeNormal : Nat := 0

/-- InteractionModelCrosshair from the protocol library. -/
def interactionModelCrosshair : Nat := 1

/-- The synthetic PlayerAuthInput packet: the fields the keepalive loop
fills in (the input-flags bitset is the empty bitset and is omitted). -/
structure PlayerAuthInputPacket where
  position : Vec3
  pitch : F32
  yaw : F32
  headYaw : F32
  tick : Nat
  inputMode : Nat
  playMode : Nat
  interactionModel : Nat
deriving DecidableEq, Repr

/-- The uint64 tick counter of playerAuthInputLoop after n increments:
starts at 0 and wraps at 2^64. -/
def tickSeq : Nat → Nat
  | 0 => 0
  | n + 1 => (tickSeq n + 1) % 2 ^ 64

/-- The n-th packet written by playerAuthInputLoop (n counts writes from 1).
The loop captures only the handshake GameData gd: position, pitch and yaw
come from gd on every write, and tick is incremented before the write. -/
def keepaliveWrite (gd : GameData) (n : Nat) : PlayerAuthInputPacket :=
  { position := gd.playerPosition
    pitch := gd.pitch
    yaw := gd.yaw
    headYaw := gd.yaw
    tick := tickSeq n
    inputMode := inputModeMouse
    playMode := playModeNormal
    interactionModel := interactionModelCrosshair }

theorem tickSeq_eq_mod (n : Nat) : tickSeq n = n % 2 ^ 64 := by
  induction n with
  | zero => rfl
  | succ n ih =>
      unfold tickSeq
      rw [ih, Nat.mod_add_mod]

/-- C1 (amended): every synthetic keepalive packet carries the position and
rotation frozen at handshake (taken from the StartGame GameData), regardless
of any later GameState update; its tick counter is a 64-bit value starting
at 1 and incremented before each write. -/
theorem keepalive_packet_fields (gd : GameData) (n : Nat) :
    (keepaliveWrite gd (n + 1)).position = gd.playerPosition ∧
    (keepaliveWrite gd (n + 1)).pitch = gd.pitch ∧
    (keepaliveWrite gd (n + 1)).yaw = gd.yaw ∧
    (keepaliveWrite gd (n + 1)).headYaw = gd.yaw ∧
    (keepaliveWrite gd (n + 1)).tick = (n + 1) % 2 ^ 64 ∧
    (keepaliveWrite gd 1).tick = 1 :=
  ⟨rfl, rfl, rfl, rfl, tickSeq_eq_mod (n + 1), rfl⟩

/-- The handshake GameData used in the keepalive counterexample. -/
def keepaliveGameData : GameData :=
  { worldName := ""
    playerGameMode := 0
    time := 0
    dimension := 0
    worldSpawn := ⟨0, 0, 0⟩
    playerPosition := ⟨0, 0, 0⟩
    pitch := 0
    yaw := 0
    entityRuntimeID := 42
    items := [] }

/-- C1 counterexample: after a client input packet moves the player to
(1,2,3), the last known GameState position is (1,2,3), yet the next
keepalive packet still carries the handshake position (0,0,0) — the
keepalive never reads GameState. -/
theorem keepalive_ignores_state_cex :
    (interceptClientPacket 0 (.playerAuthInput ⟨1, 2, 3⟩ 4 5)
        (NewGameState.InitFromGameData keepaliveGameData)).posX = 1 ∧
    (interceptClientPacket 0 (.playerAuthInput ⟨1, 2, 3⟩ 4 5)
        (NewGameState.InitFromGameData keepaliveGameData)).posY = 2 ∧
    (interceptClientPacket 0 (.playerAuthInput ⟨1, 2, 3⟩ 4 5)
        (NewGameState.InitFromGameData keepaliveGameData)).posZ = 3 ∧
    (keepaliveWrite keepaliveGameData 2).position = ⟨0, 0, 0⟩ ∧
    ((⟨0, 0, 0⟩ : Vec3) ≠ ⟨1, 2, 3⟩) :=
  ⟨rfl, rfl, rfl, rfl, by decide⟩

/-! Address resolver (realm.go). -/

/-- The join-endpoint HTTP response observed on one attempt: status code and
the address field of the decoded body. -/
structure JoinResponse where
  status : Nat
  address : String
deriving DecidableEq, Repr

/-- realmJoin from realm.go: every response with status at least 400 becomes
an error carrying that status; otherwise the address is returned. -/
def realmJoinResult (r : JoinResponse) : Except Nat String :=
  if r.status ≥ 400 then .error r.status else .ok r.address

/-- Result of the resolver retry loop. -/
inductive ResolveResult where
  | resolved (address : String) (attempt : Nat)
  | exhausted
deriving DecidableEq, Repr

/-- Body of the `for attempt := range 10` loop of resolveRealmAddress: on
any join error it sleeps and retries; on an address that does not parse as
host:port it sleeps and retries; a parseable address returns.  The `parses`
parameter models net.SplitHostPort succeeding. -/
def resolveLoop (responses : Nat → JoinResponse) (parses : String → Bool) :
    Nat → Nat → ResolveResult
  | 0, _ => .exhausted
  | fuel + 1, attempt =>
      match realmJoinResult (responses attempt) with
      | .error _ => resolveLoop responses parses fuel (attempt + 1)
      | .ok addr =>
          if parses addr then .resolved addr attempt
          else resolveLoop responses parses fuel (attempt + 1)

/-- resolveRealmAddress retry loop from realm.go: at most 10 attempts. -/
def resolveRealmAddress (responses : Nat → JoinResponse) (parses : String → Bool) :
    ResolveResult :=
  resolveLoop responses parses 10 0

theorem resolveLoop_skip_errors (responses : Nat → JoinResponse) (parses : String → Bool) :
    ∀ (d fuel start : Nat), d < fuel →
      (∀ k, k < d → 400 ≤ (responses (start + k)).status) →
      (responses (start + d)).status < 400 →
      parses (responses (start + d)).address = true →
      resolveLoop responses parses fuel start
        = .resolved (responses (start + d)).address (start + d) := by
  intro d
  induction d with
  | zero =>
      intro fuel start hf _ hok hparse
      cases fuel with
      | zero => omega
      | succ f =>
          simp only [Nat.add_zero] at hok hparse ⊢
          have hlt : ¬ (400 ≤ (responses start).status) := by omega
          simp [resolveLoop, realmJoinResult, hlt, hparse]
  | succ d ih =>
      intro fuel start hf herr hok hparse
      cases fuel with
      | zero => omega
      | succ f =>
          have h0 : 400 ≤ (responses start).status := by
            have := herr 0 (by omega)
            simpa using this
          rw [show start + (d + 1) = (start + 1) + d from by omega] at hok hparse ⊢
          have herr' : ∀ k, k < d → 400 ≤ (responses ((start + 1) + k)).status := by
            intro k hk
            have := herr (k + 1) (by omega)
            rwa [show start + (k + 1) = (start + 1) + k from by omega] at this
          have htail := ih f (start + 1) (by omega) herr' hok hparse
          simp [resolveLoop, realmJoinResult, h0, htail]

/-- C4 (amended): inside the retry loop every join failure is retried, no
matter its HTTP status — 503, any other status ≥ 400, and generic errors
alike; no join failure is terminal before the 10-attempt budget runs out. -/
theorem resolver_retries_all_join_errors (responses : Nat → JoinResponse)
    (parses : String → Bool) (j : Nat) (hj : j < 10)
    (herr : ∀ k, k < j → 400 ≤ (responses k).status)
    (hok : (responses j).status < 400)
    (hparse : parses (responses j).address = true) :
    resolveRealmAddress responses parses = .resolved (responses j).address j := by
  unfold resolveRealmAddress
  have := resolveLoop_skip_errors responses parses j 10 0 hj
    (by simpa using herr) (by simpa using hok) (by simpa using hparse)
  simpa using this

/-- Join responses: a 404 failure on the first attempt, then a well-formed
address. -/
def joinResponses404 : Nat → JoinResponse :=
  fun k => if k = 0 then ⟨404, ""⟩ else ⟨200, "host:19132"⟩

/-- Address parser stand-in for the counterexample: exactly the concrete
host:port string parses. -/
def parsesHostPort : String → Bool := fun s => s == "host:19132"

/-- Witness for the amended C4 theorem: the 404 on attempt 0 is retried and
attempt 1 resolves. -/
theorem resolver_retries_all_join_errors_witness :
    resolveRealmAddress joinResponses404 parsesHostPort
      = .resolved (joinResponses404 1).address 1 :=
  resolver_retries_all_join_errors joinResponses404 parsesHostPort 1
    (by decide) (by decide) (by decide) (by decide)

/-- C4 counterexample: a join failure with HTTP 404 (≥ 400 and not 503) on
the first attempt is not terminal — the resolver performs a further attempt
and returns the second address instead of the 404 error. -/
theorem resolver_404_not_terminal_cex :
    resolveRealmAddress joinResponses404 parsesHostPort = .resolved "host:19132" 1 ∧
    400 ≤ (joinResponses404 0).status ∧ (joinResponses404 0).status ≠ 503 := by
  refine ⟨by decide, by decide, by decide⟩

/-! Listener loop and session engine (startProxy and the synchronously
called handleSession from tools/proxy/proxy.go), modelled as a small-step
machine over program points driven by environment events. -/

/-- Program points of the listener loop and session engine. -/
inductive ProxyPC where
  | loopTop
  | accepting
  | resolving
  | dialing
  | handshaking
  | relaying
  | stopped
deriving DecidableEq, Repr

/-- Environment events: accept outcomes, resolver and dial outcomes, the
handshake pair outcome (carrying the identity data and GameData read from
the upstream), relay termination and context cancellation. -/
inductive ProxyEvent where
  | enterWait
  | cancel
  | acceptOk
  | acceptErr
  | resolveOk
  | resolveErr
  | dialOk
  | dialErr
  | handshakeOk (displayName xuid : String) (entityRuntimeID : Nat) (gd : GameData)
  | handshakeErr
  | relayEnd
deriving DecidableEq, Repr

/-- A machine state: the program point plus the shared GameState. -/
structure ProxyState where
  pc : ProxyPC
  gs : GameState
deriving DecidableEq, Repr

/-- End of a session in startProxy: ClearConnections, then
SetStatus(Disconnected), then the loop continues. -/
def sessionEnd (gs : GameState) : GameState :=
  gs.ClearConnections.SetStatus StatusDisconnected

/-- One step of startProxy / handleSession.  Failure paths inside
handleSession return to startProxy, which always runs sessionEnd.  The
successful handshake installs connections, identity, game data and the
Connected status in the order of the source. -/
def proxyStep (s : ProxyState) (e : ProxyEvent) : Option ProxyState :=
  match s.pc, e with
  | .loopTop, .enterWait => some ⟨.accepting, s.gs.SetStatus StatusWaitingForClient⟩
  | .loopTop, .cancel => some ⟨.stopped, s.gs⟩
  | .accepting, .acceptOk => some ⟨.resolving, s.gs.SetStatus StatusConnectingToRealm⟩
  | .accepting, .acceptErr => some ⟨.loopTop, s.gs⟩
  | .accepting, .cancel => some ⟨.stopped, s.gs⟩
  | .resolving, .resolveOk => some ⟨.dialing, s.gs⟩
  | .resolving, .resolveErr => some ⟨.loopTop, sessionEnd s.gs⟩
  | .dialing, .dialOk => some ⟨.handshaking, s.gs⟩
  | .dialing, .dialErr => some ⟨.loopTop, sessionEnd s.gs⟩
  | .handshaking, .handshakeOk dn xu eid gd =>
      some ⟨.relaying,
        ((((s.gs.SetConnections true true).SetIdentity dn xu eid).InitFromGameData
          gd).SetStatus StatusConnected)⟩
  | .handshaking, .handshakeErr => some ⟨.loopTop, sessionEnd s.gs⟩
  | .relaying, .relayEnd => some ⟨.loopTop, sessionEnd s.gs⟩
  | .relaying, .cancel => some ⟨.loopTop, sessionEnd s.gs⟩
  | _, _ => none

/-- Run the machine over a list of events. -/
def proxyRun : ProxyState → List ProxyEvent → Option ProxyState
  | s, [] => some s
  | s, e :: es =>
      match proxyStep s e with
      | none => none
      | some s' => proxyRun s' es

/-- The status-change pairs observed along a run. -/
def proxyTransitions : ProxyState → List ProxyEvent → List (String × String)
  | _, [] => []
  | s, e :: es =>
      match proxyStep s e with
      | none => []
      | some s' =>
          (if s'.gs.status = s.gs.status then [] else [(s.gs.status, s'.gs.status)])
            ++ proxyTransitions s' es

/-- The machine starts at the loop top with the freshly created state. -/
def initialProxyState : ProxyState := ⟨.loopTop, NewGameState⟩

/-- The five status values of the enumeration. -/
def statusValues : List String :=
  [StatusStarting, StatusWaitingForClient, StatusConnectingToRealm, StatusConnected,
    StatusDisconnected]

/-- The consecutive pairs of the status cycle claimed by the spec. -/
def allowedStatusPairs : List (String × String) :=
  [(StatusStarting, StatusWaitingForClient),
   (StatusWaitingForClient, StatusConnectingToRealm),
   (StatusConnectingToRealm, StatusConnected),
   (StatusConnected, StatusDisconnected),
   (StatusDisconnected, StatusWaitingForClient)]

/-- Each program point determines the possible status values. -/
def proxyInv (s : ProxyState) : Prop :=
  match s.pc with
  | .loopTop | .stopped =>
      s.gs.status = StatusStarting ∨ s.gs.status = StatusWaitingForClient ∨
        s.gs.status = StatusDisconnected
  | .accepting => s.gs.status = StatusWaitingForClient
  | .resolving | .dialing | .handshaking => s.gs.status = StatusConnectingToRealm
  | .relaying => s.gs.status = StatusConnected

theorem proxyInv_step (s : ProxyState) (e : ProxyEvent) (s' : ProxyState)
    (hstep : proxyStep s e = some s') (hinv : proxyInv s) : proxyInv s' := by
  obtain ⟨pc, gs⟩ := s
  cases pc <;> cases e <;> (try exact Option.noConfusion hstep) <;>
    (injection hstep with h; subst h) <;>
    simp_all [proxyInv, sessionEnd, GameState.SetStatus, GameState.ClearConnections,
      GameState.SetConnections, GameState.SetIdentity, GameState.InitFromGameData]

theorem proxyStep_pair (s : ProxyState) (e : ProxyEvent) (s' : ProxyState)
    (hstep : proxyStep s e = some s') (hinv : proxyInv s)
    (hchange : s'.gs.status ≠ s.gs.status) :
    (s.gs.status, s'.gs.status) ∈ allowedStatusPairs ∨
      (s.gs.status, s'.gs.status) = (StatusConnectingToRealm, StatusDisconnected) := by
  obtain ⟨pc, gs⟩ := s
  cases pc <;> cases e <;> (try exact Option.noConfusion hstep) <;>
    (injection hstep with h; subst h) <;>
    (simp only [proxyInv] at hinv) <;>
    (try rcases hinv with hinv | hinv | hinv) <;>
    simp_all [proxyInv, sessionEnd, GameState.SetStatus, GameState.ClearConnections,
      GameState.SetConnections, GameState.SetIdentity, GameState.InitFromGameData,
      allowedStatusPairs, StatusStarting, StatusWaitingForClient,
      StatusConnectingToRealm, StatusConnected, StatusDisconnected]

theorem proxyInv_status_mem (s : ProxyState) (hinv : proxyInv s) :
    s.gs.status ∈ statusValues := by
  obtain ⟨pc, gs⟩ := s
  cases pc <;> simp only [proxyInv] at hinv <;>
    (try rcases hinv with hinv | hinv | hinv) <;>
    simp_all [statusValues]

theorem proxyRun_inv : ∀ (evs : List ProxyEvent) (s s' : ProxyState),
    proxyInv s → proxyRun s evs = some s' → proxyInv s' := by
  intro evs
  induction evs with
  | nil =>
      intro s s' hinv hrun
      simp [proxyRun] at hrun
      subst hrun
      exact hinv
  | cons e es ih =>
      intro s s' hinv hrun
      unfold proxyRun at hrun
      cases hstep : proxyStep s e with
      | none => rw [hstep] at hrun; simp at hrun
      | some s1 =>
          rw [hstep] at hrun
          exact ih s1 s' (proxyInv_step s e s1 hstep hinv) hrun

theorem proxyTransitions_allowed : ∀ (evs : List ProxyEvent) (s : ProxyState),
    proxyInv s → ∀ p ∈ proxyTransitions s evs,
      p ∈ allowedStatusPairs ∨ p = (StatusConnectingToRealm, StatusDisconnected) := by
  intro evs
  induction evs with
  | nil =>
      intro s _ p hp
      simp [proxyTransitions] at hp
  | cons e es ih =>
      intro s hinv p hp
      unfold proxyTransitions at hp
      cases hstep : proxyStep s e with
      | none => rw [hstep] at hp; simp at hp
      | some s1 =>
          rw [hstep] at hp
          have hinv1 := proxyInv_step s e s1 hstep hinv
          rcases List.mem_append.mp hp with hleft | hright
          · by_cases hch : s1.gs.status = s.gs.status
            · rw [if_pos hch] at hleft
              simp at hleft
            · rw [if_neg hch] at hleft
              simp at hleft
              subst hleft
              exact proxyStep_pair s e s1 hstep hinv hch
          · exact ih s1 hinv1 p hright

/-- C5 (amended): along every run of the listener loop and session engine
the status is always one of the five enumeration values, and every status
change is either a consecutive pair of the cycle Starting → WaitingForClient
→ ConnectingToRealm → Connected → Disconnected → WaitingForClient or the
session-failure transition ConnectingToRealm → Disconnected (taken when the
resolve, dial or handshake phase fails). -/
theorem proxy_status_machine :
    (∀ (evs : List ProxyEvent) (s' : ProxyState),
      proxyRun initialProxyState evs = some s' → s'.gs.status ∈ statusValues) ∧
    (∀ (evs : List ProxyEvent) (p : String × String),
      p ∈ proxyTransitions initialProxyState evs →
      p ∈ allowedStatusPairs ∨ p = (StatusConnectingToRealm, StatusDisconnected)) := by
  have hinv0 : proxyInv initialProxyState := Or.inl rfl
  constructor
  · intro evs s' hrun
    exact proxyInv_status_mem s' (proxyRun_inv evs initialProxyState s' hinv0 hrun)
  · intro evs p hp
    exact proxyTransitions_allowed evs initialProxyState hinv0 p hp

/-- Witness for the amended C5 theorem: the empty run keeps the initial
status, and the first transition of a run is Starting → WaitingForClient. -/
theorem proxy_status_machine_witness :
    initialProxyState.gs.status ∈ statusValues ∧
    ((StatusStarting, StatusWaitingForClient) ∈ allowedStatusPairs ∨
      (StatusStarting, StatusWaitingForClient)
        = (StatusConnectingToRealm, StatusDisconnected)) :=
  ⟨proxy_status_machine.1 [] initialProxyState rfl,
   proxy_status_machine.2 [.enterWait] (StatusStarting, StatusWaitingForClient)
     (by decide)⟩

/-- The run whose session fails while resolving the realm address. -/
def resolveFailTrace : List ProxyEvent := [.enterWait, .acceptOk, .resolveErr]

/-- C5 counterexample: when the resolve phase fails, the machine takes the
status transition ConnectingToRealm → Disconnected, which is not one of the
consecutive pairs of the claimed cycle. -/
theorem status_transition_cex :
    (StatusConnectingToRealm, StatusDisconnected)
        ∈ proxyTransitions initialProxyState resolveFailTrace ∧
    (StatusConnectingToRealm, StatusDisconnected) ∉ allowedStatusPairs := by
  exact ⟨by decide, by decide⟩

/-- C7 (amended): the identity fields are written only by the successful
handshake step, which is reachable only through the dial phase of a new
session (hence once per session); every session-end teardown clears the two
connection handles but leaves the identity fields unchanged. -/
theorem identity_set_at_handshake_not_cleared :
    (∀ (s : ProxyState) (e : ProxyEvent) (s' : ProxyState), proxyStep s e = some s' →
      (s'.gs.displayName = s.gs.displayName ∧ s'.gs.xuid = s.gs.xuid ∧
        s'.gs.entityID = s.gs.entityID) ∨
      (s.pc = .handshaking ∧ ∃ dn xu eid gd, e = .handshakeOk dn xu eid gd ∧
        s'.gs.displayName = dn ∧ s'.gs.xuid = xu ∧ s'.gs.entityID = eid)) ∧
    (∀ (s : ProxyState) (e : ProxyEvent) (s' : ProxyState), proxyStep s e = some s' →
      s'.pc = .handshaking → s.pc = .dialing ∧ e = .dialOk) ∧
    (∀ (s : ProxyState) (e : ProxyEvent) (s' : ProxyState), proxyStep s e = some s' →
      ((s.pc = .resolving ∧ e = .resolveErr) ∨ (s.pc = .dialing ∧ e = .dialErr) ∨
        (s.pc = .handshaking ∧ e = .handshakeErr) ∨
        (s.pc = .relaying ∧ (e = .relayEnd ∨ e = .cancel))) →
      s'.gs.serverConn = false ∧ s'.gs.clientConn = false ∧
        s'.gs.displayName = s.gs.displayName ∧ s'.gs.xuid = s.gs.xuid ∧
        s'.gs.entityID = s.gs.entityID) := by
  refine ⟨?_, ?_, ?_⟩
  · intro s e s' hstep
    obtain ⟨pc, gs⟩ := s
    cases pc <;> cases e <;> (try exact Option.noConfusion hstep) <;>
      (injection hstep with h; subst h) <;>
      first
        | exact Or.inl ⟨rfl, rfl, rfl⟩
        | (rename_i dn xu eid gd
           exact Or.inr ⟨rfl, dn, xu, eid, gd, rfl, rfl, rfl, rfl⟩)
  · intro s e s' hstep hpc
    obtain ⟨pc, gs⟩ := s
    cases pc <;> cases e <;> (try exact Option.noConfusion hstep) <;>
      (injection hstep with h; subst h) <;>
      first
        | exact ProxyPC.noConfusion hpc
        | exact ⟨rfl, rfl⟩
  · intro s e s' hstep hcase
    obtain ⟨pc, gs⟩ := s
    cases pc <;> cases e <;> (try exact Option.noConfusion hstep) <;>
      (injection hstep with h; subst h) <;>
      first
        | exact ⟨rfl, rfl, rfl, rfl, rfl⟩
        | (exfalso
           rcases hcase with ⟨h1, h2⟩ | ⟨h1, h2⟩ | ⟨h1, h2⟩ | ⟨h1, h2⟩ <;> simp_all)

/-- A machine state in the relay phase with an installed identity. -/
def relayingState : ProxyState :=
  ⟨.relaying,
    (((NewGameState.SetConnections true true).SetIdentity "Steve" "xuid123" 42).SetStatus
      StatusConnected)⟩

/-- Witness for the amended C7 theorem: the relay-end teardown from a
connected session clears the connections and keeps the identity. -/
theorem identity_set_at_handshake_not_cleared_witness :
    (⟨.loopTop, sessionEnd relayingState.gs⟩ : ProxyState).gs.serverConn = false ∧
    (⟨.loopTop, sessionEnd relayingState.gs⟩ : ProxyState).gs.clientConn = false ∧
    (⟨.loopTop, sessionEnd relayingState.gs⟩ : ProxyState).gs.displayName
        = relayingState.gs.displayName ∧
    (⟨.loopTop, sessionEnd relayingState.gs⟩ : ProxyState).gs.xuid = relayingState.gs.xuid ∧
    (⟨.loopTop, sessionEnd relayingState.gs⟩ : ProxyState).gs.entityID
        = relayingState.gs.entityID :=
  identity_set_at_handshake_not_cleared.2.2 relayingState .relayEnd
    ⟨.loopTop, sessionEnd relayingState.gs⟩ rfl
    (Or.inr (Or.inr (Or.inr ⟨rfl, Or.inl rfl⟩)))

/-- A full successful session followed by its end. -/
def sessionTrace : List ProxyEvent :=
  [.enterWait, .acceptOk, .resolveOk, .dialOk,
   .handshakeOk "Steve" "xuid123" 42 keepaliveGameData, .relayEnd]

/-- C7 counterexample: after the session ends (status Disconnected) the
identity still holds the handshake values — it is not cleared. -/
theorem identity_not_cleared_cex :
    (proxyRun initialProxyState sessionTrace).map
        (fun s => (s.gs.status, s.gs.displayName, s.gs.xuid, s.gs.entityID))
      = some (StatusDisconnected, "Steve", "xuid123", 42) ∧
    "Steve" ≠ "" := by
  exact ⟨by decide, by decide⟩

end MinecraftProxy
